import Mathlib

/-!
Verification development for the `duration` TypeScript library
(`src/duration.ts`). The library stores a time span as one JavaScript
number of milliseconds and offers factories, a string parser, unit
conversion with rounding, arithmetic, comparison and formatting.

Embedding notes:
* A JavaScript number is modelled by `JSNum`: an exact rational, or one of
  the special values `NaN`, `+Infinity`, `-Infinity`.  Finite arithmetic is
  exact rational arithmetic (binary-float rounding of finite values is not
  modelled); the propagation rules for the special values follow the
  ECMAScript operators used by the source.  Negative zero is identified
  with zero (the source never observes the difference: `===` treats them as
  equal and no operation in the library branches on the sign of zero).
* Strings are handled as `List Char` internally, as in the source's regex
  scan over the input string.
-/

/- Batteries marks the arithmetic on `Rat` irreducible; restore the
default reducibility so that concrete runs of the embedded functions can
be settled by `decide`. -/
attribute [local semireducible] Rat.add Rat.mul Rat.sub Rat.inv Rat.ofScientific

/-- Model of a JavaScript number: an exact rational or a special value. -/
inductive JSNum where
  | fin : ℚ → JSNum
  | posInf : JSNum
  | negInf : JSNum
  | nan : JSNum
deriving DecidableEq

namespace JSNum

/-- JavaScript `+` on numbers. -/
def add : JSNum → JSNum → JSNum
  | fin a, fin b => fin (a + b)
  | fin _, posInf => posInf
  | fin _, negInf => negInf
  | posInf, fin _ => posInf
  | posInf, posInf => posInf
  | posInf, negInf => nan
  | negInf, fin _ => negInf
  | negInf, posInf => nan
  | negInf, negInf => negInf
  | nan, _ => nan
  | _, nan => nan

/-- JavaScript `-` on numbers. -/
def sub : JSNum → JSNum → JSNum
  | fin a, fin b => fin (a - b)
  | fin _, posInf => negInf
  | fin _, negInf => posInf
  | posInf, fin _ => posInf
  | posInf, posInf => nan
  | posInf, negInf => posInf
  | negInf, fin _ => negInf
  | negInf, posInf => negInf
  | negInf, negInf => nan
  | nan, _ => nan
  | _, nan => nan

/-- JavaScript `*` on numbers (`0 * ±Infinity` is `NaN`). -/
def mul : JSNum → JSNum → JSNum
  | fin a, fin b => fin (a * b)
  | fin a, posInf => if a = 0 then nan else if 0 < a then posInf else negInf
  | fin a, negInf => if a = 0 then nan else if 0 < a then negInf else posInf
  | posInf, fin b => if b = 0 then nan else if 0 < b then posInf else negInf
  | negInf, fin b => if b = 0 then nan else if 0 < b then negInf else posInf
  | posInf, posInf => posInf
  | posInf, negInf => negInf
  | negInf, posInf => negInf
  | negInf, negInf => posInf
  | nan, _ => nan
  | _, nan => nan

/-- JavaScript `/` on numbers.  Division of a nonzero finite value by zero
yields a signed infinity (the model has no negative zero, so the divisor
zero is treated as `+0`); `0/0` and `±Infinity/±Infinity` are `NaN`. -/
def div : JSNum → JSNum → JSNum
  | fin a, fin b =>
      if b = 0 then (if a = 0 then nan else if 0 < a then posInf else negInf)
      else fin (a / b)
  | fin _, posInf => fin 0
  | fin _, negInf => fin 0
  | posInf, fin b => if 0 ≤ b then posInf else negInf
  | negInf, fin b => if 0 ≤ b then negInf else posInf
  | posInf, posInf => nan
  | posInf, negInf => nan
  | negInf, posInf => nan
  | negInf, negInf => nan
  | nan, _ => nan
  | _, nan => nan

/-- JavaScript `<` on numbers: `false` whenever `NaN` is involved. -/
def lt : JSNum → JSNum → Bool
  | fin a, fin b => decide (a < b)
  | fin _, posInf => true
  | fin _, negInf => false
  | posInf, _ => false
  | negInf, fin _ => true
  | negInf, posInf => true
  | negInf, negInf => false
  | _, nan => false
  | nan, _ => false

/-- JavaScript `>` on numbers: for numbers, `a > b` holds exactly when
`b < a`, and is `false` whenever `NaN` is involved. -/
def gt (a b : JSNum) : Bool := lt b a

/-- JavaScript `<=` on numbers: `false` whenever `NaN` is involved. -/
def le : JSNum → JSNum → Bool
  | fin a, fin b => decide (a ≤ b)
  | fin _, posInf => true
  | fin _, negInf => false
  | posInf, fin _ => false
  | posInf, posInf => true
  | posInf, negInf => false
  | negInf, _ => true
  | _, nan => false
  | nan, _ => false

/-- JavaScript `>=` on numbers. -/
def ge (a b : JSNum) : Bool := le b a

/-- JavaScript `===` on numbers: `NaN` is not equal to anything, including
itself. -/
def eqb : JSNum → JSNum → Bool
  | fin a, fin b => decide (a = b)
  | posInf, posInf => true
  | negInf, negInf => true
  | _, _ => false

/-- JavaScript `Math.floor`. -/
def floor : JSNum → JSNum
  | fin a => fin (⌊a⌋ : ℤ)
  | posInf => posInf
  | negInf => negInf
  | nan => nan

/-- JavaScript `Math.ceil`. -/
def ceil : JSNum → JSNum
  | fin a => fin (⌈a⌉ : ℤ)
  | posInf => posInf
  | negInf => negInf
  | nan => nan

/-- JavaScript `Math.round`: for finite values this is `⌊x + 1/2⌋`
(nearest integer, with exact-half ties rounded toward positive infinity). -/
def round : JSNum → JSNum
  | fin a => fin (⌊a + 1 / 2⌋ : ℤ)
  | posInf => posInf
  | negInf => negInf
  | nan => nan

/-- JavaScript `Math.abs`. -/
def abs : JSNum → JSNum
  | fin a => fin |a|
  | posInf => posInf
  | negInf => posInf
  | nan => nan

/-- JavaScript `Number.isInteger`. -/
def isInteger : JSNum → Bool
  | fin a => decide (a.den = 1)
  | _ => false

end JSNum

/-- Milliseconds per second (`Duration.MS_PER_SECOND`). -/
def Duration.MS_PER_SECOND : ℚ := 1000

/-- Milliseconds per minute (`Duration.MS_PER_MINUTE`). -/
def Duration.MS_PER_MINUTE : ℚ := 60 * Duration.MS_PER_SECOND

/-- Milliseconds per hour (`Duration.MS_PER_HOUR`). -/
def Duration.MS_PER_HOUR : ℚ := 60 * Duration.MS_PER_MINUTE

/-- Milliseconds per day (`Duration.MS_PER_DAY`). -/
def Duration.MS_PER_DAY : ℚ := 24 * Duration.MS_PER_HOUR

/-- Milliseconds per week (`Duration.MS_PER_WEEK`). -/
def Duration.MS_PER_WEEK : ℚ := 7 * Duration.MS_PER_DAY

/-- Approximate milliseconds per month, 30 days (`Duration.MS_PER_MONTH`). -/
def Duration.MS_PER_MONTH : ℚ := 30 * Duration.MS_PER_DAY

/-- Approximate milliseconds per year, 365 days (`Duration.MS_PER_YEAR`). -/
def Duration.MS_PER_YEAR : ℚ := 365 * Duration.MS_PER_DAY

/-- Options of `Duration.parse`.  The source's second option (named
"allow" + "Partial" there) is called `allowExtra` here; it permits extra
non-duration text in the input. -/
structure ParseOptions where
  strict : Bool := true
  allowExtra : Bool := false

/-- Rounding modes of the conversion methods (`RoundingMode`). -/
inductive RoundingMode where
  | round : RoundingMode
  | floor : RoundingMode
  | ceil : RoundingMode
deriving DecidableEq

/-- Options of the conversion methods (`ConversionOptions`); an absent
`precision` means no rounding is applied. -/
structure ConversionOptions where
  precision : Option Nat := none
  rounding : RoundingMode := RoundingMode.round

/-- The distinct error conditions raised by the library (each is a thrown
`Error` with a fixed message prefix in the source). -/
inductive DurationError where
  | emptyInput : DurationError
  | duplicateUnit : String → DurationError
  | noTokensFound : DurationError
  | unexpectedTrailing : String → DurationError
  | divisionByZero : DurationError
  | unsupportedUnit : String → DurationError
deriving DecidableEq

/-- The `Duration` value: a wrapper around the private millisecond field
(`#milliseconds` in the source). -/
structure Duration where
  milliseconds : JSNum
deriving DecidableEq

/-- The `ms()` accessor: returns the stored millisecond value. -/
def Duration.msVal (d : Duration) : JSNum := d.milliseconds

/-- Static factory `Duration.ms`. -/
def Duration.ms (milliseconds : JSNum) : Duration := ⟨milliseconds⟩

/-- Static factory `Duration.secs`. -/
def Duration.secs (seconds : JSNum) : Duration :=
  ⟨seconds.mul (.fin Duration.MS_PER_SECOND)⟩

/-- Static factory `Duration.mins`. -/
def Duration.mins (minutes : JSNum) : Duration :=
  ⟨minutes.mul (.fin Duration.MS_PER_MINUTE)⟩

/-- Static factory `Duration.hrs`. -/
def Duration.hrs (hours : JSNum) : Duration :=
  ⟨hours.mul (.fin Duration.MS_PER_HOUR)⟩

/-- Static factory `Duration.days`. -/
def Duration.days (days : JSNum) : Duration :=
  ⟨days.mul (.fin Duration.MS_PER_DAY)⟩

/-- Static factory `Duration.weeks`. -/
def Duration.weeks (weeks : JSNum) : Duration :=
  ⟨weeks.mul (.fin Duration.MS_PER_WEEK)⟩

/-- Static factory `Duration.months`. -/
def Duration.months (months : JSNum) : Duration :=
  ⟨months.mul (.fin Duration.MS_PER_MONTH)⟩

/-- Static factory `Duration.years`. -/
def Duration.years (years : JSNum) : Duration :=
  ⟨years.mul (.fin Duration.MS_PER_YEAR)⟩

/-- Method `add`: componentwise `this.#milliseconds + other.ms()`. -/
def Duration.add (d other : Duration) : Duration :=
  ⟨d.milliseconds.add other.msVal⟩

/-- Method `sub`: `this.#milliseconds - other.ms()`. -/
def Duration.sub (d other : Duration) : Duration :=
  ⟨d.milliseconds.sub other.msVal⟩

/-- Method `mul`: scale by a factor. -/
def Duration.mul (d : Duration) (factor : JSNum) : Duration :=
  ⟨d.milliseconds.mul factor⟩

/-- Method `div`: throws on a divisor that is `=== 0`, otherwise divides. -/
def Duration.div (d : Duration) (divisor : JSNum) : Except DurationError Duration :=
  if divisor.eqb (.fin 0) then .error .divisionByZero
  else .ok ⟨d.milliseconds.div divisor⟩

/-- Method `eq`: `this.#milliseconds === other.ms()`. -/
def Duration.eq (d other : Duration) : Bool := d.milliseconds.eqb other.msVal

/-- Method `lt`: `this.#milliseconds < other.ms()`. -/
def Duration.lt (d other : Duration) : Bool := d.milliseconds.lt other.msVal

/-- Method `gt`: `this.#milliseconds > other.ms()`. -/
def Duration.gt (d other : Duration) : Bool := d.milliseconds.gt other.msVal

/-- Method `lte`: `this.#milliseconds <= other.ms()`. -/
def Duration.lte (d other : Duration) : Bool := d.milliseconds.le other.msVal

/-- Method `gte`: `this.#milliseconds >= other.ms()`. -/
def Duration.gte (d other : Duration) : Bool := d.milliseconds.ge other.msVal

/-- Method `isZero`: `this.#milliseconds === 0`. -/
def Duration.isZero (d : Duration) : Bool := d.milliseconds.eqb (.fin 0)

/-- Method `abs`: `Math.abs` of the stored value. -/
def Duration.abs (d : Duration) : Duration := ⟨d.milliseconds.abs⟩

/-- Character class of the regex `\s` as used by the scanner and of
`String.prototype.trim` (the ASCII whitespace characters plus NBSP; the
rarer Unicode space characters are not modelled). -/
def isSpaceJS (c : Char) : Bool :=
  c == ' ' || c == '\t' || c == '\n' || c == '\r' || c == '\x0b' ||
    c == '\x0c' || c == ' '

/-- Model of `String.prototype.trim`: drop whitespace from both ends. -/
def trimJS (l : List Char) : List Char :=
  ((l.dropWhile isSpaceJS).reverse.dropWhile isSpaceJS).reverse

/-- The unit-label alternation of `#PARSE_REGEX`, in the source's exact
order: `(ms|s|m|h|d|w|mo|y)`.  A backtracking regex engine tries these
left to right and commits to the first alternative that matches. -/
def UNIT_ALTS : List (List Char) :=
  [['m', 's'], ['s'], ['m'], ['h'], ['d'], ['w'], ['m', 'o'], ['y']]

/-- The valid lowercase unit labels accepted by `#unitToMilliseconds`. -/
def VALID_UNITS : List String := ["ms", "s", "m", "h", "d", "w", "mo", "y"]

/-- Case-insensitive match of a fixed pattern against the front of the
input (the `i` regex flag); returns the consumed input characters in their
original case, and the rest. -/
def ciTake : List Char → List Char → Option (List Char × List Char)
  | [], l => some ([], l)
  | _ :: _, [] => none
  | p :: ps, c :: cs =>
      if c.toLower = p.toLower then
        match ciTake ps cs with
        | some (cap, rest) => some (c :: cap, rest)
        | none => none
      else none

/-- Try the alternatives of an alternation in order; first match wins. -/
def tryAlts : List (List Char) → List Char → Option (List Char × List Char)
  | [], _ => none
  | p :: ps, l =>
      match ciTake p l with
      | some r => some r
      | none => tryAlts ps l

/-- The optional fractional part `(?:\.\d+)?`: a dot followed by at least
one digit, matched greedily; otherwise nothing is consumed. -/
def matchFrac : List Char → (List Char × List Char)
  | '.' :: rest =>
      let ds := rest.takeWhile Char.isDigit
      if ds.isEmpty then ([], '.' :: rest)
      else ('.' :: ds, rest.dropWhile Char.isDigit)
  | l => ([], l)

/-- Attempt of `#PARSE_REGEX` at the current position:
`(\d+(?:\.\d+)?)\s*(ms|s|m|h|d|w|mo|y)` with the `i` flag.  Returns the
numeric capture, the unit capture and the remaining input.  Each
subpattern is greedy; when the unit alternation fails no backtracking can
rescue the match (giving characters back from `\d+`, the fractional part
or `\s*` leaves a digit, a dot or a space in front, none of which can
begin a unit label), so the whole attempt fails, exactly as in the regex
engine. -/
def matchAt (l : List Char) : Option (List Char × List Char × List Char) :=
  let ds := l.takeWhile Char.isDigit
  if ds.isEmpty then none
  else
    let r1 := l.dropWhile Char.isDigit
    let (fr, r2) := matchFrac r1
    let r3 := r2.dropWhile isSpaceJS
    match tryAlts UNIT_ALTS r3 with
    | some (u, rest) => some (ds ++ fr, u, rest)
    | none => none

/-- Global scan with replacement, as in `input.replace(#PARSE_REGEX, ...)`:
find the leftmost match, emit it as a token, replace it by one space in
the remainder, continue after it; characters that start no match are
copied to the remainder.  The fuel argument (instantiated with the input
length, which every step strictly decreases below) only establishes
termination. -/
def scanAux : Nat → List Char → (List (List Char × List Char) × List Char)
  | 0, l => ([], l)
  | _ + 1, [] => ([], [])
  | n + 1, c :: cs =>
      match matchAt (c :: cs) with
      | some (v, u, rest) =>
          ((v, u) :: (scanAux n rest).1, ' ' :: (scanAux n rest).2)
      | none =>
          ((scanAux n cs).1, c :: (scanAux n cs).2)

/-- All regex matches of the input, in left-to-right order, together with
the replaced remainder text. -/
def scan (l : List Char) : List (List Char × List Char) × List Char :=
  scanAux l.length l

/-- Numeric value of a digit run. -/
def digitsToNat (l : List Char) : ℕ :=
  l.foldl (fun a c => 10 * a + (c.toNat - '0'.toNat)) 0

/-- Model of `Number.parseFloat` on a capture of `\d+(\.\d+)?`: the exact
decimal value (the rounding of an out-of-range literal to a binary float
or to `Infinity` is not modelled). -/
def parseQ (v : List Char) : ℚ :=
  let ip := v.takeWhile Char.isDigit
  match v.dropWhile Char.isDigit with
  | '.' :: fp => (digitsToNat ip : ℚ) + (digitsToNat fp : ℚ) / (10 : ℚ) ^ fp.length
  | _ => (digitsToNat ip : ℚ)

/-- The `#unitToMilliseconds` switch: milliseconds per lowercase unit
label, with a defensive error on anything outside the fixed set. -/
def unitToMilliseconds (unit : String) : Except DurationError ℚ :=
  match unit with
  | "ms" => .ok 1
  | "s" => .ok Duration.MS_PER_SECOND
  | "m" => .ok Duration.MS_PER_MINUTE
  | "h" => .ok Duration.MS_PER_HOUR
  | "d" => .ok Duration.MS_PER_DAY
  | "w" => .ok Duration.MS_PER_WEEK
  | "mo" => .ok Duration.MS_PER_MONTH
  | "y" => .ok Duration.MS_PER_YEAR
  | u => .error (.unsupportedUnit u)

/-- The replacement callback of `parse`, folded over the matched tokens in
scan order: lower-case the unit capture, reject a repeated unit in strict
mode, and accumulate `value * unitRatio` into the running total. -/
def applyTokens (strict : Bool) :
    List (List Char × List Char) → List String → JSNum →
    Except DurationError JSNum
  | [], _, total => .ok total
  | (v, u) :: rest, seen, total =>
      let value : JSNum := .fin (parseQ v)
      let unit : String := ⟨u.map Char.toLower⟩
      if strict && seen.contains unit then .error (.duplicateUnit unit)
      else
        match unitToMilliseconds unit with
        | .error e => .error e
        | .ok ratio =>
            applyTokens strict rest (unit :: seen)
              (total.add (value.mul (.fin ratio)))

/-- Static `Duration.parse`: reject input that trims to nothing, scan the
original input for tokens, run the callback over them (a duplicate-unit
error surfaces from the scan itself, before the later checks, exactly as a
throw from the replacement callback would), reject a tokenless input,
then reject a non-whitespace remainder unless extra text is allowed. -/
def Duration.parse (input : String) (opts : ParseOptions := {}) :
    Except DurationError Duration :=
  if (trimJS input.data).isEmpty then .error .emptyInput
  else
    match applyTokens opts.strict (scan input.data).1 [] (.fin 0) with
    | .error e => .error e
    | .ok total =>
        if (scan input.data).1.isEmpty then .error .noTokensFound
        else if !opts.allowExtra && !(trimJS (scan input.data).2).isEmpty then
          .error (.unexpectedTrailing ⟨trimJS (scan input.data).2⟩)
        else .ok ⟨total⟩

/-- The `#round` helper: with no `precision` return the value unchanged;
otherwise scale by `10 ** precision`, apply the selected `Math` rounding
function (the switch falls through to `Math.round` by default), and scale
back. -/
def roundOpts (value : JSNum) (opts : ConversionOptions := {}) : JSNum :=
  match opts.precision with
  | none => value
  | some p =>
      let factor : JSNum := .fin ((10 : ℚ) ^ p)
      match opts.rounding with
      | .floor => ((value.mul factor).floor).div factor
      | .ceil => ((value.mul factor).ceil).div factor
      | .round => ((value.mul factor).round).div factor

/-- The `#convert` helper: divide the stored milliseconds by the target
unit ratio, then apply `#round`. -/
def Duration.convert (d : Duration) (unitValue : ℚ)
    (opts : ConversionOptions := {}) : JSNum :=
  roundOpts (d.milliseconds.div (.fin unitValue)) opts

/-- Conversion method `secs(options)`. -/
def Duration.secsConv (d : Duration) (opts : ConversionOptions := {}) : JSNum :=
  d.convert Duration.MS_PER_SECOND opts

/-- Conversion method `mins(options)`. -/
def Duration.minsConv (d : Duration) (opts : ConversionOptions := {}) : JSNum :=
  d.convert Duration.MS_PER_MINUTE opts

/-- Conversion method `hrs(options)`. -/
def Duration.hrsConv (d : Duration) (opts : ConversionOptions := {}) : JSNum :=
  d.convert Duration.MS_PER_HOUR opts

/-- Conversion method `days(options)`. -/
def Duration.daysConv (d : Duration) (opts : ConversionOptions := {}) : JSNum :=
  d.convert Duration.MS_PER_DAY opts

/-- Conversion method `weeks(options)`. -/
def Duration.weeksConv (d : Duration) (opts : ConversionOptions := {}) : JSNum :=
  d.convert Duration.MS_PER_WEEK opts

/-- Conversion method `months(options)`. -/
def Duration.monthsConv (d : Duration) (opts : ConversionOptions := {}) : JSNum :=
  d.convert Duration.MS_PER_MONTH opts

/-- Conversion method `years(options)`. -/
def Duration.yearsConv (d : Duration) (opts : ConversionOptions := {}) : JSNum :=
  d.convert Duration.MS_PER_YEAR opts

/-- The `#FORMAT_UNITS` table, largest unit first, ending in the
millisecond entry that the loop treats specially. -/
def FORMAT_UNITS : List (String × ℚ) :=
  [("y", Duration.MS_PER_YEAR), ("mo", Duration.MS_PER_MONTH),
   ("w", Duration.MS_PER_WEEK), ("d", Duration.MS_PER_DAY),
   ("h", Duration.MS_PER_HOUR), ("m", Duration.MS_PER_MINUTE),
   ("s", Duration.MS_PER_SECOND), ("ms", 1)]

/-- Fractional decimal digits of `q ∈ [0, 1)` by long division, stopping
at an exact zero remainder (so no trailing zeros) or after `fuel` digits. -/
def ratFracDigits : Nat → ℚ → List Char
  | 0, _ => []
  | k + 1, q =>
      if q = 0 then []
      else
        let d := ⌊q * 10⌋
        Char.ofNat ('0'.toNat + d.toNat) :: ratFracDigits k (q * 10 - (d : ℚ))

/-- Decimal rendering of a rational with at most `maxFrac` fractional
digits and no trailing zeros. -/
def ratToDecimalString (q : ℚ) (maxFrac : Nat) : String :=
  let s := if q < 0 then "-" else ""
  let aq := |q|
  let ip := (⌊aq⌋).toNat
  let ds := ratFracDigits maxFrac (aq - (ip : ℚ))
  if ds.isEmpty then s ++ toString ip
  else s ++ toString ip ++ "." ++ String.mk ds

/-- JavaScript `String(value)` on a number, as far as this model needs it:
special values and integers print exactly; a non-integral finite value is
printed as a decimal (JavaScript prints the shortest decimal that
round-trips through the binary double — for the decimal fractions this
library produces the two agree; in `format` this function is only ever
applied to integral `Math.floor` results or special values). -/
def jsNumToString : JSNum → String
  | .fin q => if q.den = 1 then ratToDecimalString q 0 else ratToDecimalString q 17
  | .nan => "NaN"
  | .posInf => "Infinity"
  | .negInf => "-Infinity"

/-- Nearest multiple of `10 ^ (-6)`, ties toward positive infinity: the
rounding `toFixed(6)` performs ("if there are two such n, pick the larger
n"). -/
def roundTo6 (q : ℚ) : ℚ := ((⌊q * 10 ^ 6 + 1 / 2⌋ : ℤ) : ℚ) / 10 ^ 6

/-- The `#formatNumber` helper: an integer prints as `String(value)`;
otherwise the value is rounded to 6 decimals by `toFixed(6)` and the
`Number(...)`/`String(...)` round-trip strips the trailing zeros. -/
def formatNumber (value : JSNum) : String :=
  match value with
  | .fin q =>
      if q.den = 1 then ratToDecimalString q 0
      else ratToDecimalString (roundTo6 q) 6
  | .nan => "NaN"
  | .posInf => "Infinity"
  | .negInf => "-Infinity"

/-- The loop body of `format` over `#FORMAT_UNITS`: the `"ms"` entry ends
the loop, emitting the remaining magnitude via `#formatNumber` when it is
positive; every larger unit emits `floor(remaining / ratio)` with its
label when that count is positive and subtracts what it accounted for. -/
def formatParts : List (String × ℚ) → JSNum → List String → List String
  | [], _, parts => parts
  | (label, u) :: rest, remaining, parts =>
      if label = "ms" then
        if remaining.gt (.fin 0) then parts ++ [formatNumber remaining ++ "ms"]
        else parts
      else
        let value := (remaining.div (.fin u)).floor
        if value.gt (.fin 0) then
          formatParts rest (remaining.sub (value.mul (.fin u)))
            (parts ++ [jsNumToString value ++ label])
        else formatParts rest remaining parts

/-- Method `format`: `"0ms"` for an exact zero; otherwise a sign for
negative values followed by the greedy unit decomposition of the absolute
magnitude, the segments joined by single spaces. -/
def Duration.format (d : Duration) : String :=
  if d.milliseconds.eqb (.fin 0) then "0ms"
  else
    let sign := if d.milliseconds.lt (.fin 0) then "-" else ""
    let parts := formatParts FORMAT_UNITS d.milliseconds.abs []
    sign ++ String.intercalate " " parts

/-- Rounding the way the specification words it: nearest integer with
exact-half ties rounded away from zero.  Stated only for comparison with
the code's `Math.round`. -/
def roundHalfAwayFromZero (q : ℚ) : ℤ :=
  if q < 0 then -⌊-q + 1 / 2⌋ else ⌊q + 1 / 2⌋

/-- A case-insensitively matched capture lower-cases to the pattern it
matched. -/
theorem ciTake_toLower :
    ∀ (p l cap rest : List Char), ciTake p l = some (cap, rest) →
      cap.map Char.toLower = p.map Char.toLower := by
  intro p
  induction p with
  | nil =>
    intro l cap rest h
    simp [ciTake] at h
    simp [h.1]
  | cons a as ih =>
    intro l cap rest h
    cases l with
    | nil => simp [ciTake] at h
    | cons c cs =>
      simp only [ciTake] at h
      split at h
      · rename_i hc
        cases hm : ciTake as cs with
        | none => rw [hm] at h; cases h
        | some pr =>
          obtain ⟨cap', rest'⟩ := pr
          rw [hm] at h
          simp only [Option.some.injEq, Prod.mk.injEq] at h
          obtain ⟨h1, h2⟩ := h
          subst h1
          simp [List.map, hc, ih cs cap' rest' hm]
      · cases h

/-- A successful alternation match comes from one of its alternatives. -/
theorem tryAlts_sound :
    ∀ (alts : List (List Char)) (l u rest : List Char),
      tryAlts alts l = some (u, rest) →
      ∃ p ∈ alts, ciTake p l = some (u, rest) := by
  intro alts
  induction alts with
  | nil => intro l u rest h; simp [tryAlts] at h
  | cons p ps ih =>
    intro l u rest h
    simp only [tryAlts] at h
    cases hm : ciTake p l with
    | some r =>
      rw [hm] at h
      simp only [] at h
      exact ⟨p, by simp, hm.trans h⟩
    | none =>
      rw [hm] at h
      obtain ⟨q, hq1, hq2⟩ := ih l u rest h
      exact ⟨q, by simp [hq1], hq2⟩

/-- The unit capture of a regex match lower-cases into the alternation. -/
theorem matchAt_unit (l v u rest : List Char) (h : matchAt l = some (v, u, rest)) :
    u.map Char.toLower ∈ UNIT_ALTS := by
  simp only [matchAt] at h
  split at h
  · cases h
  · cases hm : tryAlts UNIT_ALTS (((matchFrac (l.dropWhile Char.isDigit)).2).dropWhile isSpaceJS) with
    | none => rw [hm] at h; cases h
    | some r =>
      obtain ⟨u', rest'⟩ := r
      rw [hm] at h
      simp only [Option.some.injEq, Prod.mk.injEq] at h
      obtain ⟨-, h2, -⟩ := h
      subst h2
      obtain ⟨p, hp, hci⟩ := tryAlts_sound _ _ _ _ hm
      have hlow := ciTake_toLower _ _ _ _ hci
      fin_cases hp <;> rw [hlow] <;> decide

/-- Every token the global scan produces carries a unit capture that
lower-cases into the alternation. -/
theorem scanAux_units :
    ∀ (n : ℕ) (l : List Char) (t : List Char × List Char),
      t ∈ (scanAux n l).1 → t.2.map Char.toLower ∈ UNIT_ALTS := by
  intro n
  induction n with
  | zero => intro l t h; simp [scanAux] at h
  | succ m ih =>
    intro l t h
    cases l with
    | nil => simp [scanAux] at h
    | cons c cs =>
      simp only [scanAux] at h
      cases hm : matchAt (c :: cs) with
      | some r =>
        obtain ⟨v, u, rest⟩ := r
        rw [hm] at h
        simp only [List.mem_cons] at h
        rcases h with h | h
        · subst h
          exact matchAt_unit _ _ _ _ hm
        · exact ih rest t h
      | none =>
        rw [hm] at h
        exact ih cs t h

/-- The members of the alternation are the valid unit labels. -/
theorem valid_of_alts (u : List Char) (h : u ∈ UNIT_ALTS) :
    String.mk u ∈ VALID_UNITS := by
  fin_cases h <;> decide

/-- Every scanned token's lowercased unit label is a valid unit. -/
theorem scan_units (l : List Char) (t : List Char × List Char)
    (h : t ∈ (scan l).1) : String.mk (t.2.map Char.toLower) ∈ VALID_UNITS :=
  valid_of_alts _ (scanAux_units l.length l t h)

/-- The unit-ratio lookup succeeds on every valid unit label. -/
theorem unitToMilliseconds_ok (u : String) (h : u ∈ VALID_UNITS) :
    ∃ r, unitToMilliseconds u = .ok r := by
  fin_cases h <;> exact ⟨_, rfl⟩

/-- Every ratio the unit lookup returns is non-negative. -/
theorem unitToMilliseconds_nonneg (u : String) (r : ℚ)
    (h : unitToMilliseconds u = .ok r) : 0 ≤ r := by
  unfold unitToMilliseconds at h
  split at h <;>
    first
      | exact Except.noConfusion h
      | (injection h with h; subst h;
         norm_num [Duration.MS_PER_SECOND, Duration.MS_PER_MINUTE,
           Duration.MS_PER_HOUR, Duration.MS_PER_DAY, Duration.MS_PER_WEEK,
           Duration.MS_PER_MONTH, Duration.MS_PER_YEAR])

/-- A numeric capture of the scanner parses to a non-negative value. -/
theorem parseQ_nonneg (v : List Char) : 0 ≤ parseQ v := by
  unfold parseQ
  split <;> positivity

/-- When every token's lowercased unit is valid, the token fold can only
fail with a duplicate-unit error. -/
theorem applyTokens_error :
    ∀ (toks : List (List Char × List Char)) (strict : Bool)
      (seen : List String) (total : JSNum) (e : DurationError),
      (∀ t ∈ toks, String.mk (t.2.map Char.toLower) ∈ VALID_UNITS) →
      applyTokens strict toks seen total = .error e →
      ∃ u, e = .duplicateUnit u := by
  intro toks
  induction toks with
  | nil => intro _ _ _ _ _ h; simp [applyTokens] at h
  | cons t ts ih =>
    intro strict seen total e hv h
    obtain ⟨v, u⟩ := t
    simp only [applyTokens] at h
    split at h
    · simp only [Except.error.injEq] at h
      exact ⟨_, h.symm⟩
    · obtain ⟨r, hr⟩ := unitToMilliseconds_ok _ (hv (v, u) (by simp))
      rw [hr] at h
      exact ih strict _ _ e (fun t ht => hv t (by simp [ht])) h

/-- The token fold keeps a finite non-negative accumulator. -/
theorem applyTokens_nonneg :
    ∀ (toks : List (List Char × List Char)) (strict : Bool)
      (seen : List String) (q : ℚ) (total : JSNum),
      0 ≤ q →
      applyTokens strict toks seen (.fin q) = .ok total →
      ∃ r, total = .fin r ∧ 0 ≤ r := by
  intro toks
  induction toks with
  | nil =>
    intro strict seen q total hq h
    simp only [applyTokens, Except.ok.injEq] at h
    exact ⟨q, h.symm, hq⟩
  | cons t ts ih =>
    intro strict seen q total hq h
    obtain ⟨v, u⟩ := t
    simp only [applyTokens] at h
    split at h
    · cases h
    · cases hm : unitToMilliseconds (String.mk (u.map Char.toLower)) with
      | error e => rw [hm] at h; cases h
      | ok uval =>
        rw [hm] at h
        have hq' : 0 ≤ q + parseQ v * uval :=
          add_nonneg hq (mul_nonneg (parseQ_nonneg v) (unitToMilliseconds_nonneg _ _ hm))
        exact ih strict _ (q + parseQ v * uval) total hq' h

/-- C8: every unit label captured by the token scanner, once lowercased,
is one of ms, s, m, h, d, w, mo, y, and consequently `parse` never raises
the defensive `UnsupportedUnit` error on any input and options. -/
theorem parse_no_unsupported_unit :
    (∀ (l : List Char) (t : List Char × List Char), t ∈ (scan l).1 →
      String.mk (t.2.map Char.toLower) ∈ VALID_UNITS) ∧
    (∀ (input : String) (opts : ParseOptions) (u : String),
      Duration.parse input opts ≠ .error (.unsupportedUnit u)) := by
  constructor
  · exact scan_units
  · intro input opts u h
    unfold Duration.parse at h
    split at h
    · cases h
    · split at h
      · rename_i e he
        simp only [Except.error.injEq] at h
        obtain ⟨w, hw⟩ := applyTokens_error _ _ _ _ e
          (fun t ht => scan_units input.data t ht) he
        rw [hw] at h
        cases h
      · split at h
        · cases h
        · split at h
          · cases h
          · cases h

/-- Witness for C8 at concrete inputs: the scanned token of "1h" has a
valid unit, and parsing "1x" does not raise `UnsupportedUnit`. -/
theorem parse_no_unsupported_unit_witness :
    String.mk (['h'].map Char.toLower) ∈ VALID_UNITS ∧
    Duration.parse ("1x") {} ≠ .error (.unsupportedUnit ("x")) :=
  ⟨parse_no_unsupported_unit.1 ("1h").data (['1'], ['h']) (by decide),
   parse_no_unsupported_unit.2 ("1x") {} ("x")⟩

/-- C9: whenever `parse` succeeds, the returned duration holds a finite
non-negative number of milliseconds (the grammar admits no sign and each
token contributes a non-negative amount). -/
theorem parse_result_nonneg (input : String) (opts : ParseOptions) (d : Duration)
    (h : Duration.parse input opts = .ok d) :
    ∃ q : ℚ, d.milliseconds = .fin q ∧ 0 ≤ q := by
  unfold Duration.parse at h
  split at h
  · cases h
  · split at h
    · cases h
    · rename_i total htot
      split at h
      · cases h
      · split at h
        · cases h
        · obtain ⟨q, hq, hq0⟩ := applyTokens_nonneg _ _ _ 0 total le_rfl htot
          simp only [Except.ok.injEq] at h
          subst h
          exact ⟨q, by simp [hq], hq0⟩

/-- Witness for C9: parsing "1s" succeeds with 1000 ms, a non-negative
finite value. -/
theorem parse_result_nonneg_witness :
    ∃ q : ℚ, (Duration.mk (.fin 1000)).milliseconds = .fin q ∧ 0 ≤ q :=
  parse_result_nonneg ("1s") {} ⟨.fin 1000⟩ rfl

/-- C4 (amended): for durations whose stored values are not NaN, exactly
one of `lt`, `eq`, `gt` holds; the original claim fails on NaN-valued
durations (see the counterexample). -/
theorem comparison_trichotomy (a b : Duration)
    (ha : a.milliseconds ≠ JSNum.nan) (hb : b.milliseconds ≠ JSNum.nan) :
    (a.lt b = true ∨ a.eq b = true ∨ a.gt b = true) ∧
    ¬(a.lt b = true ∧ a.eq b = true) ∧
    ¬(a.lt b = true ∧ a.gt b = true) ∧
    ¬(a.eq b = true ∧ a.gt b = true) := by
  obtain ⟨x⟩ := a
  obtain ⟨y⟩ := b
  simp only [Duration.lt, Duration.eq, Duration.gt, Duration.msVal, JSNum.gt] at *
  cases x <;> cases y <;>
    first
      | (simp_all [JSNum.lt, JSNum.eqb]; done)
      | skip
  rename_i q r
  simp only [JSNum.lt, JSNum.eqb, decide_eq_true_eq]
  exact ⟨lt_trichotomy q r,
    fun h2 => absurd h2.2 (ne_of_lt h2.1),
    fun h2 => lt_asymm h2.1 h2.2,
    fun h2 => absurd h2.1.symm (ne_of_lt h2.2)⟩

/-- Witness for C4 at the pair 1 ms and 2 ms. -/
theorem comparison_trichotomy_witness :
    (((Duration.mk (.fin 1)).lt ⟨.fin 2⟩ = true ∨
      (Duration.mk (.fin 1)).eq ⟨.fin 2⟩ = true ∨
      (Duration.mk (.fin 1)).gt ⟨.fin 2⟩ = true) ∧
    ¬((Duration.mk (.fin 1)).lt ⟨.fin 2⟩ = true ∧
      (Duration.mk (.fin 1)).eq ⟨.fin 2⟩ = true) ∧
    ¬((Duration.mk (.fin 1)).lt ⟨.fin 2⟩ = true ∧
      (Duration.mk (.fin 1)).gt ⟨.fin 2⟩ = true) ∧
    ¬((Duration.mk (.fin 1)).eq ⟨.fin 2⟩ = true ∧
      (Duration.mk (.fin 1)).gt ⟨.fin 2⟩ = true)) :=
  comparison_trichotomy ⟨.fin 1⟩ ⟨.fin 2⟩ (by decide) (by decide)

/-- Counterexample to C4 as stated: on a NaN-valued duration none of
`lt`, `eq`, `gt` holds, so no "exactly one" can be true. -/
theorem comparison_trichotomy_nan_cex :
    (Duration.mk JSNum.nan).lt ⟨JSNum.nan⟩ = false ∧
    (Duration.mk JSNum.nan).eq ⟨JSNum.nan⟩ = false ∧
    (Duration.mk JSNum.nan).gt ⟨JSNum.nan⟩ = false := by decide

/-- C5 (amended): `a.add(b).sub(b).eq(a)` holds for durations with finite
stored values; the original unrestricted claim fails on NaN (see the
counterexample). -/
theorem add_sub_inverse (a b : Duration) (q r : ℚ)
    (ha : a.milliseconds = .fin q) (hb : b.milliseconds = .fin r) :
    ((a.add b).sub b).eq a = true := by
  obtain ⟨x⟩ := a
  obtain ⟨y⟩ := b
  simp only at ha hb
  subst ha
  subst hb
  simp [Duration.add, Duration.sub, Duration.eq, Duration.msVal,
    JSNum.add, JSNum.sub, JSNum.eqb]

/-- Witness for C5 at 5 ms and 7 ms. -/
theorem add_sub_inverse_witness :
    (((Duration.mk (.fin 5)).add ⟨.fin 7⟩).sub ⟨.fin 7⟩).eq ⟨.fin 5⟩ = true :=
  add_sub_inverse ⟨.fin 5⟩ ⟨.fin 7⟩ 5 7 rfl rfl

/-- Counterexample to C5 as stated: with `b` holding NaN, the round trip
yields NaN, which `eq` rejects. -/
theorem add_sub_inverse_nan_cex :
    (((Duration.mk (.fin 0)).add ⟨JSNum.nan⟩).sub ⟨JSNum.nan⟩).eq ⟨.fin 0⟩ = false := by
  decide

/-- C6: `div` fails with `DivisionByZero` exactly when the divisor is
`=== 0`, and on every other divisor (NaN and infinities included) it
returns the duration of `a.ms / divisor` without failing. -/
theorem div_by_zero_spec (d : Duration) (x : JSNum) :
    (d.div x = .error .divisionByZero ↔ x.eqb (.fin 0) = true) ∧
    (x.eqb (.fin 0) = false → d.div x = .ok ⟨d.milliseconds.div x⟩) := by
  by_cases hx : x.eqb (.fin 0) = true
  · simp [Duration.div, hx]
  · have hx' : x.eqb (.fin 0) = false := by simpa using hx
    simp [Duration.div, hx']

/-- Witness for C6: dividing 6 ms by NaN does not fail and divides. -/
theorem div_by_zero_spec_witness :
    (Duration.mk (.fin 6)).div JSNum.nan =
      .ok ⟨(Duration.mk (.fin 6)).milliseconds.div JSNum.nan⟩ :=
  (div_by_zero_spec ⟨.fin 6⟩ JSNum.nan).2 (by decide)

/-- C2 (amended): with a precision `p` and the `round` mode, the converter
returns `⌊raw * 10 ^ p + 1/2⌋ / 10 ^ p` — nearest-integer rounding whose
exact-half ties go toward positive infinity (`Math.round`), not away from
zero as the original claim stated. -/
theorem convert_round_ties_toward_posinf (q u : ℚ) (p : ℕ) (hu : 0 < u) :
    Duration.convert ⟨.fin q⟩ u {precision := some p, rounding := .round} =
      .fin (((⌊q / u * (10 : ℚ) ^ p + 1 / 2⌋ : ℤ) : ℚ) / (10 : ℚ) ^ p) := by
  have h10 : ((10 : ℚ) ^ p) ≠ 0 := by positivity
  simp only [Duration.convert, roundOpts, JSNum.div, JSNum.mul, JSNum.round]
  rw [if_neg hu.ne']
  simp only [JSNum.mul, JSNum.round, JSNum.div]
  rw [if_neg h10]

/-- Witness for C2 at raw value 3/2 and precision 1. -/
theorem convert_round_ties_toward_posinf_witness :
    Duration.convert ⟨.fin 3⟩ 2 {precision := some 1, rounding := .round} =
      .fin (((⌊(3 : ℚ) / 2 * (10 : ℚ) ^ 1 + 1 / 2⌋ : ℤ) : ℚ) / (10 : ℚ) ^ 1) :=
  convert_round_ties_toward_posinf 3 2 1 (by norm_num)

/-- Counterexample to C2 as stated: converting -1500 ms to seconds at
precision 0 scales to the exact half-integer -1.5; the code returns -1
(tie toward positive infinity), not the -2 that ties-away-from-zero
rounding would give. -/
theorem convert_round_away_cex :
    Duration.secsConv ⟨.fin (-1500)⟩ {precision := some 0, rounding := .round} =
      .fin (-1) ∧
    Duration.secsConv ⟨.fin (-1500)⟩ {precision := some 0, rounding := .round} ≠
      .fin (((roundHalfAwayFromZero ((-1500 : ℚ) / 1000 * (10 : ℚ) ^ 0) : ℤ) : ℚ) /
        (10 : ℚ) ^ 0) := by
  constructor
  · decide
  · decide

/-- A duration built as `n * u` milliseconds converts back through the
ratio `u` to exactly `n` when no rounding options are given. -/
theorem convert_roundtrip (n u : ℚ) (hu : u ≠ 0) :
    (Duration.mk (.fin (n * u))).convert u {} = .fin n := by
  simp only [Duration.convert, roundOpts, JSNum.div]
  rw [if_neg hu]
  rw [mul_div_cancel_right₀ n hu]

/-- C3: for every finite scalar `n`, each unit factory composed with the
matching converter (no options) returns exactly `n`. -/
theorem factory_converter_roundtrip (n : ℚ) :
    (Duration.ms (.fin n)).msVal = .fin n ∧
    (Duration.secs (.fin n)).secsConv {} = .fin n ∧
    (Duration.mins (.fin n)).minsConv {} = .fin n ∧
    (Duration.hrs (.fin n)).hrsConv {} = .fin n ∧
    (Duration.days (.fin n)).daysConv {} = .fin n ∧
    (Duration.weeks (.fin n)).weeksConv {} = .fin n ∧
    (Duration.months (.fin n)).monthsConv {} = .fin n ∧
    (Duration.years (.fin n)).yearsConv {} = .fin n :=
  ⟨rfl,
   convert_roundtrip n Duration.MS_PER_SECOND (by decide),
   convert_roundtrip n Duration.MS_PER_MINUTE (by decide),
   convert_roundtrip n Duration.MS_PER_HOUR (by decide),
   convert_roundtrip n Duration.MS_PER_DAY (by decide),
   convert_roundtrip n Duration.MS_PER_WEEK (by decide),
   convert_roundtrip n Duration.MS_PER_MONTH (by decide),
   convert_roundtrip n Duration.MS_PER_YEAR (by decide)⟩

/-- Witness for C3 at the scalar 42 through the seconds pair. -/
theorem factory_converter_roundtrip_witness :
    (Duration.secs (.fin 42)).secsConv {} = .fin 42 :=
  (factory_converter_roundtrip 42).2.1

/-- The empty string is a left identity of string append. -/
theorem empty_append_str (s : String) : "" ++ s = s := by
  obtain ⟨l⟩ := s
  rfl

/-- C7: `format` returns "0ms" on an exact zero; a negative finite value
formats as "-" followed by the formatting of its absolute value (greedy
whole-unit decomposition joined by single spaces); in particular -90
minutes formats as "-1h 30m", 1 h + 30 min + 15 s as "1h 30m 15s", and a
fractional half millisecond as "0.5ms" with no trailing zeros. -/
theorem format_spec :
    (∀ d : Duration, d.milliseconds = .fin 0 → d.format = "0ms") ∧
    (∀ (d : Duration) (q : ℚ), d.milliseconds = .fin q → q < 0 →
      d.format = "-" ++ d.abs.format) ∧
    (Duration.mins (.fin (-90))).format = "-1h 30m" ∧
    ((Duration.hrs (.fin 1)).add
      ((Duration.mins (.fin 30)).add (Duration.secs (.fin 15)))).format =
      "1h 30m 15s" ∧
    (Duration.mk (.fin (1 / 2))).format = "0.5ms" := by
  refine ⟨?_, ?_, by decide, by decide, by decide⟩
  · intro d h
    obtain ⟨x⟩ := d
    simp only at h
    subst h
    decide
  · intro d q h hq
    obtain ⟨x⟩ := d
    simp only at h
    subst h
    have h0 : q ≠ 0 := ne_of_lt hq
    have habs0 : |q| ≠ 0 := abs_ne_zero.mpr h0
    simp only [Duration.format, Duration.abs, JSNum.abs, JSNum.eqb, JSNum.lt,
      decide_eq_true_eq, if_neg h0, if_neg habs0, if_pos hq,
      if_neg (not_lt.mpr (abs_nonneg q)), abs_abs]
    rw [empty_append_str]

/-- Witness for C7: the zero literal and the sign law at -90 minutes. -/
theorem format_spec_witness :
    (Duration.mk (.fin 0)).format = "0ms" ∧
    (Duration.mins (.fin (-90))).format = "-" ++ (Duration.mins (.fin (-90))).abs.format :=
  ⟨format_spec.1 ⟨.fin 0⟩ rfl,
   format_spec.2.1 (Duration.mins (.fin (-90))) (-5400000) (by decide) (by decide)⟩

/-- C1: the scanner does not prefer "mo" over "m" — the alternation lists
"m" first, so "1mo" tokenizes as one minute followed by a stray "o";
with default options `parse ("1mo")` therefore throws the trailing-input
error instead of returning 30 days, and even allowing extra text it
returns one minute, not one month. -/
theorem parse_one_month_rejected :
    Duration.parse ("1mo") {} = .error (.unexpectedTrailing ("o")) ∧
    Duration.parse ("1mo") {strict := true, allowExtra := true} =
      .ok ⟨.fin Duration.MS_PER_MINUTE⟩ ∧
    .fin Duration.MS_PER_MINUTE ≠ JSNum.fin (30 * Duration.MS_PER_DAY) := by
  refine ⟨rfl, rfl, by decide⟩

/-- C10: a NaN-valued duration formats to the empty string — the zero
test, the sign test, every whole-count test and the final remaining test
are all false on NaN, so no segment is emitted. -/
theorem format_nan_empty : (Duration.mk JSNum.nan).format = "" := by decide
